import Mathlib

/-!
Verification of the Preferans web client (gpreda/preferans).

This file gives a shallow embedding of the parts of the repository the
claims refer to:

* the round-start deal (server side, modelled from the spec),
* the early game client (`src/unnamed/part_003`): static bid buttons,
* the main game client (`src/preferans/web/app.js`, first version):
  card selection, discard/contract/play/next-round request handlers,
  contract-level option population, per-card rendering, and the
  phase-dependent action panels,
* the terminal client (`src/web/app.js`): scoring rendering.

JavaScript `undefined`/`null` is modelled with `Option`; JS falsy
checks on numbers model `0` as falsy where the source can receive it.
-/

/-! ## Card and deck model (round-start deal)

`Modelled from the spec:` the dealing code runs on the server and is not
under `src/` (only the e2e test `32 cards total in game` observes it).
Per spec section 3, the deck is the fixed 32-card set (SEVEN..ACE x 4
suits), shuffled once per round by a seeded round-scoped random source
and partitioned into three 10-card hands plus a 2-card talon. -/

inductive Rank where
  | seven | eight | nine | ten | jack | queen | king | ace
deriving DecidableEq, Repr

inductive Suit where
  | clubs | diamonds | hearts | spades
deriving DecidableEq, Repr

structure Card where
  rank : Rank
  suit : Suit
deriving DecidableEq, Repr

def allRanks : List Rank :=
  [.seven, .eight, .nine, .ten, .jack, .queen, .king, .ace]

def allSuits : List Suit :=
  [.clubs, .diamonds, .hearts, .spades]

/-- Modelled from the spec: the fixed 32-card deck (7 through Ace of
every suit). -/
def fullDeck : List Card :=
  allSuits.flatMap (fun s => allRanks.map (fun r => ⟨r, s⟩))

/-- Modelled from the spec: a deterministic round-scoped random source
(a linear congruential generator). -/
def lcgNext (seed : Nat) : Nat :=
  (seed * 1103515245 + 12345) % 2147483648

/-- Modelled from the spec: a seeded shuffle; at each step the random
source selects one of the remaining cards, which is moved to the output.
The result is a permutation of the input list. -/
def shuffleFrom (seed : Nat) : List Card → List Card
  | [] => []
  | x :: xs =>
    let c := (x :: xs).get ⟨seed % (xs.length + 1), Nat.mod_lt _ (Nat.succ_pos _)⟩
    c :: shuffleFrom (lcgNext seed) ((x :: xs).erase c)
termination_by l => l.length
decreasing_by
  have hc : (x :: xs).get ⟨seed % (xs.length + 1), Nat.mod_lt _ (Nat.succ_pos _)⟩ ∈ x :: xs :=
    List.get_mem _ _ _
  simp [List.length_erase_of_mem hc]

/-- A round-start deal: three hands and the talon. -/
structure Deal where
  hand1 : List Card
  hand2 : List Card
  hand3 : List Card
  talon : List Card
deriving DecidableEq, Repr

/-- Modelled from the spec: `shuffleAndDeal(seed)` — deterministic given
a seed; produces 3 hands of 10 cards plus a talon of 2 by partitioning
the shuffled 32-card deck. -/
def shuffleAndDeal (seed : Nat) : Deal :=
  let d := shuffleFrom seed fullDeck
  { hand1 := d.take 10
    hand2 := (d.drop 10).take 10
    hand3 := (d.drop 20).take 10
    talon := d.drop 30 }

/-! ## Game client state model (`src/preferans/web/app.js`, first version)

The client keeps two mutable globals, `gameState` (the last server
snapshot, `null` before a game starts) and `selectedCards` (ids of
cards selected for discard). Server snapshots are modelled by the
fields the embedded functions actually read. -/

structure CardV where
  id : String
deriving DecidableEq, Repr

structure PlayerV where
  id : Nat
  hand : List CardV
deriving DecidableEq, Repr

structure RoundV where
  phase : String
  declarer_id : Option Nat
deriving DecidableEq, Repr

structure GameStateV where
  current_round : Option RoundV
  current_player_id : Option Nat
  legal_cards : List CardV
  players : List PlayerV
deriving DecidableEq, Repr

structure ClientState where
  gameState : Option GameStateV
  selectedCards : List String
deriving DecidableEq, Repr

/-- Result payload of a play response (`data.result`). -/
structure PlayResultV where
  trick_complete : Bool
  trick_winner_id : Option Nat
  card : Option CardV
  round_complete : Bool
deriving DecidableEq, Repr

/-- Outcome of one fetch to the server, as the handlers observe it:
an HTTP error status (`!response.ok`), a thrown exception, or a JSON
body with its `success` flag, optional `state` and optional `result`. -/
inductive ApiResponse where
  | httpError (status : Nat)
  | exn
  | ok (success : Bool) (state : Option GameStateV) (result : Option PlayResultV)
deriving DecidableEq, Repr

/-- The `declarerId` read `gameState.current_round?.declarer_id`
(`undefined` when either link is missing). -/
def declarerIdOf (gs : GameStateV) : Option Nat :=
  gs.current_round.bind (fun r => r.declarer_id)

/-- toggleCardSelection(cardId): if the card is already selected its
first occurrence is removed (`indexOf`/`splice`); otherwise it is
appended, but only while fewer than 2 cards are selected. -/
def toggleCardSelection (selectedCards : List String) (cardId : String) : List String :=
  if cardId ∈ selectedCards then
    selectedCards.erase cardId
  else if selectedCards.length < 2 then
    selectedCards ++ [cardId]
  else
    selectedCards

/-- discardSelected: guards (`!gameState`, `selectedCards.length !== 2`,
`!declarerId`) abort before any request. The first component is the
`card_ids` body of the POST to `/api/game/discard` when one is issued;
the second is the client state after the handler returns, given the
response. On `success` with a `state`, `gameState` is replaced and the
selection cleared; every other outcome leaves the state as it was. -/
def discardSelected (st : ClientState) (r : ApiResponse) :
    Option (List String) × ClientState :=
  match st.gameState with
  | none => (none, st)
  | some gs =>
    if st.selectedCards.length ≠ 2 then (none, st)
    else
      match declarerIdOf gs with
      | none => (none, st)
      | some _ =>
        (some st.selectedCards,
          match r with
          | .httpError _ => st
          | .exn => st
          | .ok success stateOpt _ =>
            if success then
              match stateOpt with
              | none => st
              | some s => { gameState := some s, selectedCards := [] }
            else st)

/-- announceContract: guards (`!gameState`, `!declarerId`, a missing
level select, `isNaN(selectedLevel)`, level outside `[2,7]`) abort
before any request. The first component is the `(player_id, level)`
body of the POST to `/api/game/contract` when one is issued; `none` for
`parsedLevel` models `parseInt` returning `NaN`. -/
def announceContract (st : ClientState) (parsedLevel : Option Int) (r : ApiResponse) :
    Option (Nat × Int) × ClientState :=
  match st.gameState with
  | none => (none, st)
  | some gs =>
    match declarerIdOf gs with
    | none => (none, st)
    | some declarerId =>
      match parsedLevel with
      | none => (none, st)
      | some selectedLevel =>
        if selectedLevel < 2 ∨ selectedLevel > 7 then (none, st)
        else
          (some (declarerId, selectedLevel),
            match r with
            | .httpError _ => st
            | .exn => st
            | .ok success stateOpt _ =>
              if success then
                match stateOpt with
                | none => st
                | some s => { st with gameState := some s }
              else st)

/-- playCard: guards (`!cardId`, `!gameState`, `!currentPlayerId`)
abort before any request; the legal-cards check only logs a warning and
blocks nothing. The first component is the `(player_id, card_id)` body
of the POST to `/api/game/play` when one is issued. Every success
branch (missing result, completed trick with or without winner or card,
mid-trick play) assigns the same returned state; failures return with
the state untouched. -/
def playCard (st : ClientState) (cardId : String) (r : ApiResponse) :
    Option (Nat × String) × ClientState :=
  if cardId = "" then (none, st)
  else
    match st.gameState with
    | none => (none, st)
    | some gs =>
      match gs.current_player_id with
      | none => (none, st)
      | some currentPlayerId =>
        (some (currentPlayerId, cardId),
          match r with
          | .httpError _ => st
          | .exn => st
          | .ok success stateOpt resultOpt =>
            if success then
              match stateOpt with
              | none => st
              | some s =>
                match resultOpt with
                | none => { st with gameState := some s }
                | some result =>
                  if result.trick_complete then
                    match result.trick_winner_id with
                    | none => { st with gameState := some s }
                    | some _ =>
                      match result.card with
                      | none => { st with gameState := some s }
                      | some _ => { st with gameState := some s }
                  else { st with gameState := some s }
            else st)

/-- nextRound: unconditional POST to `/api/game/next-round`; on
`success` with a `state` the snapshot is replaced and the selection
cleared, otherwise nothing changes. The first component records that a
request is always issued. -/
def nextRound (st : ClientState) (r : ApiResponse) : Unit × ClientState :=
  ((),
    match r with
    | .httpError _ => st
    | .exn => st
    | .ok success stateOpt _ =>
      if success then
        match stateOpt with
        | none => st
        | some s => { gameState := some s, selectedCards := [] }
      else st)

/-! ## Bidding buttons of the early client (`src/unnamed/part_003`)

That client has a static row of `.bid-btn` buttons whose `data-value`
is `0` for pass and the game values `2..5`; `updateBiddingButtons`
enables or disables each from the auction's highest bid. -/

/-- The auction's `highest_bid` as the early client reads it. -/
structure BidV where
  value : Int
  is_pass : Bool
deriving DecidableEq, Repr

/-- The minimum biddable value: `highestBid && !highestBid.is_pass ?
highestBid.value + 1 : 2`. -/
def minBid (highestBid : Option BidV) : Int :=
  match highestBid with
  | some b => if b.is_pass = false then b.value + 1 else 2
  | none => 2

/-- Disabled flag updateBiddingButtons assigns to the button holding
`value`: pass (`value === 0`) is always enabled, any other button is
disabled exactly when its value is below the minimum. -/
def bidButtonDisabled (highestBid : Option BidV) (value : Int) : Bool :=
  if value = 0 then false
  else decide (value < minBid highestBid)

/-- Modelled from the spec: the `data-value` attributes of the static
bid buttons (markup not under `src/`) — pass plus the game values
2..5. -/
def bidButtonValues : List Int := [0, 2, 3, 4, 5]

/-- The game-value buttons among them. -/
def gameBidValues : List Int := [2, 3, 4, 5]

/-! ## Contract level options (`populateContractOptions`, `src/preferans/web/app.js`) -/

/-- A game bid as the auction snapshot carries it; `none` models a
missing field for the `||` defaulting chain. -/
structure GameBidV where
  effective_value : Option Int
  value : Option Int
deriving DecidableEq, Repr

/-- The auction snapshot fields `populateContractOptions` reads. -/
structure AuctionV where
  highest_in_hand_bid : Option GameBidV
  highest_game_bid : Option GameBidV
deriving DecidableEq, Repr

/-- JavaScript `a || d` on a numeric field: `0`, `null` and `undefined`
fall through to the default. -/
def jsNumOr (a : Option Int) (d : Int) : Int :=
  match a with
  | some v => if v = 0 then d else v
  | none => d

/-- The winning game bid's value:
`highest_game_bid.effective_value || highest_game_bid.value || 2`. -/
def gameBidValue (b : GameBidV) : Int :=
  jsNumOr b.effective_value (jsNumOr b.value 2)

/-- The minimum contract level: 2 when an in-hand bid won (or no bid is
recorded), otherwise the winning game bid's value clamped by
`Math.max(2, Math.min(bidValue, 7))`. -/
def minLevel (auction : Option AuctionV) : Int :=
  match auction with
  | none => 2
  | some a =>
    if a.highest_in_hand_bid.isSome then 2
    else
      match a.highest_game_bid with
      | some b => max 2 (min (gameBidValue b) 7)
      | none => 2

/-- The `contract-level` select options: the loop adds the levels from
the minimum through 5, then 6 (Betl) when the minimum allows it, then
7 (Sans) when the minimum allows it. -/
def populateContractOptions (auction : Option AuctionV) : List Int :=
  ((List.range (6 - minLevel auction).toNat).map
      (fun i : Nat => minLevel auction + (i : Int)))
    ++ (if minLevel auction ≤ 6 then [6] else [])
    ++ (if minLevel auction ≤ 7 then [7] else [])

/-! ## Per-card rendering (`renderPlayerCards`, `src/preferans/web/app.js`) -/

/-- What `renderPlayerCards` attaches to one card image: CSS classes
(`selectable`, `selected`, `playable`), the click handlers it registers
(toggle selection resp. play), and the `draggable` attribute with its
drag handlers. -/
structure CardRender where
  selectable : Bool
  selected : Bool
  clickToggles : Bool
  playable : Bool
  clickPlays : Bool
  draggable : Bool
deriving DecidableEq, Repr

/-- The card image rendered for `card` in `player`'s hand: selection
is offered when the phase is `exchanging`, the player is the declarer
and their hand holds 12 cards; the playable marking, click handler and
drag handlers are attached when the phase is `playing`, the player is
the current player and the card's id is in the server-provided
`legal_cards`. -/
def renderPlayerCard (gs : GameStateV) (selectedCards : List String)
    (player : PlayerV) (card : CardV) : CardRender :=
  let phase := gs.current_round.map (fun r => r.phase)
  let isExchanging := phase = some "exchanging"
  let isPlaying := phase = some "playing"
  let legalCardIds := gs.legal_cards.map (fun c => c.id)
  let canSelect := isExchanging ∧ declarerIdOf gs = some player.id ∧
    player.hand.length = 12
  let canPlay := isPlaying ∧ gs.current_player_id = some player.id ∧
    card.id ∈ legalCardIds
  { selectable := decide canSelect
    selected := decide (canSelect ∧ card.id ∈ selectedCards)
    clickToggles := decide canSelect
    playable := decide canPlay
    clickPlays := decide canPlay
    draggable := decide canPlay }

/-! ## Action panels (`showActionPanelForPhase`, `src/preferans/web/app.js`) -/

/-- Visibility of the five action panels after a render pass, plus the
`hidden` class on the pickup-talon button (which lives inside the
exchange panel). -/
structure PanelState where
  biddingShown : Bool
  exchangeShown : Bool
  contractShown : Bool
  playShown : Bool
  scoringShown : Bool
  pickupHidden : Bool
deriving DecidableEq, Repr

/-- The phase string `renderGame` passes on:
`gameState.current_round?.phase || 'waiting'`. -/
def roundPhase (gs : GameStateV) : String :=
  match gs.current_round with
  | some r => if r.phase = "" then "waiting" else r.phase
  | none => "waiting"

/-- The declarer lookup
`gameState.players?.find(p => p.id === declarerId)`. -/
def findDeclarer (gs : GameStateV) : Option PlayerV :=
  match declarerIdOf gs with
  | none => none
  | some i => gs.players.find? (fun p => p.id == i)

/-- showActionPanelForPhase, run right after `hideAllActionPanels`: in
the `exchanging` case a declarer hand of 10 shows the contract panel
(already discarded); otherwise the exchange panel is shown, with the
pickup button's `hidden` class forced to whether the hand holds 12
cards (a missing declarer leaves `classList.toggle` without a boolean
force argument, which flips the class). -/
def showActionPanelForPhase (gs : GameStateV) (phase : String)
    (prevPickupHidden : Bool) : PanelState :=
  let base : PanelState :=
    ⟨false, false, false, false, false, prevPickupHidden⟩
  if phase = "auction" then { base with biddingShown := true }
  else if phase = "exchanging" then
    match findDeclarer gs with
    | some declarer =>
      if declarer.hand.length = 10 then { base with contractShown := true }
      else { base with exchangeShown := true,
                       pickupHidden := decide (declarer.hand.length = 12) }
    | none => { base with exchangeShown := true,
                          pickupHidden := !prevPickupHidden }
  else if phase = "playing" then { base with playShown := true }
  else if phase = "scoring" then { base with scoringShown := true }
  else base

/-- A control is on offer when its panel is visible and the control
itself does not carry the `hidden` class. -/
def pickupOffered (ps : PanelState) : Bool :=
  ps.exchangeShown && !ps.pickupHidden

/-! ## Terminal client scoring (`renderScoring`, `src/web/app.js`) -/

/-- The contract object as the terminal client reads it. -/
structure TermContract where
  type : String
  trump : Option String
  level : Option Int
deriving DecidableEq, Repr

/-- One entry of `state.scoring.players`. -/
structure ScoreEntry where
  tricks : Option Int
  score : Option Int
  role : Option String
deriving DecidableEq, Repr

/-- The `state.scoring` payload. -/
structure TermScoring where
  declarer_won : Bool
  declarer_tricks : Option Int
  players : List (Nat × ScoreEntry)
deriving DecidableEq, Repr

/-- The terminal state fields `renderScoring` reads. -/
structure TermState where
  all_pass : Bool
  no_followers : Bool
  declarer : Option Nat
  followers : List Nat
  contract : Option TermContract
  scoring : Option TermScoring
deriving DecidableEq, Repr

/-- The needed-tricks line of the scoring screen:
`state.contract && state.contract.type === 'betl' ? 0 : 6`. -/
def neededTricks (contract : Option TermContract) : Int :=
  match contract with
  | some c => if c.type = "betl" then 0 else 6
  | none => 6

/-- One score line logged by `renderScoreTable`. -/
structure ScoreRow where
  player : Nat
  role : String
  tricks : Int
  score : Int
deriving DecidableEq, Repr

/-- The role label of a score line: declarer, else the entry's `role`
(defaulting through `||` to `follower`) for followers, else passed. -/
def scoreRowRole (st : TermState) (p : Nat) (pd : ScoreEntry) : String :=
  if st.declarer = some p then "declarer"
  else if p ∈ st.followers then
    match pd.role with
    | some r => if r = "" then "follower" else r
    | none => "follower"
  else "passed"

/-- renderScoreTable: nothing without a scoring payload; otherwise one
line per player `1..3` present in `scoring.players`, with
`pd.tricks || 0` and `pd.score != null ? pd.score : 0`. -/
def renderScoreTable (st : TermState) : List ScoreRow :=
  match st.scoring with
  | none => []
  | some s =>
    [1, 2, 3].filterMap (fun p =>
      (s.players.lookup p).map (fun pd =>
        { player := p
          role := scoreRowRole st p pd
          tricks := jsNumOr pd.tricks 0
          score := pd.score.getD 0 }))

/-- What one `renderScoring` pass puts on screen. -/
structure ScoringOutput where
  redealMessage : Bool
  noFollowersMessage : Bool
  gameOverMessage : Bool
  neededShown : Option Int
  table : List ScoreRow
deriving DecidableEq, Repr

/-- renderScoring: the `all_pass` branch logs only the redeal line; the
`no_followers` branch logs its banner and the score table; the normal
branch logs the result banner, the needed-tricks line and the score
table. -/
def renderScoring (st : TermState) : ScoringOutput :=
  if st.all_pass then
    { redealMessage := true, noFollowersMessage := false,
      gameOverMessage := false, neededShown := none, table := [] }
  else if st.no_followers then
    { redealMessage := false, noFollowersMessage := true,
      gameOverMessage := false, neededShown := none,
      table := renderScoreTable st }
  else
    { redealMessage := false, noFollowersMessage := false,
      gameOverMessage := true, neededShown := some (neededTricks st.contract),
      table := renderScoreTable st }

/-- A failed request as the handlers classify it: an HTTP error status,
a thrown exception, `success: false`, or a success without a state. -/
def apiFailed : ApiResponse → Prop
  | .httpError _ => True
  | .exn => True
  | .ok success stateOpt _ => success = false ∨ stateOpt = none

/-- A terminal snapshot of an all-pass round; it even carries a scoring
payload to show that none of it is rendered. -/
def allPassState : TermState :=
  { all_pass := true
    no_followers := false
    declarer := none
    followers := []
    contract := none
    scoring := some ⟨false, none, [(1, ⟨some 3, some 4, none⟩)]⟩ }

/-! ## Concrete fixtures used by witnesses and counterexamples -/

def hand10 : List CardV :=
  [⟨"7_spades"⟩, ⟨"8_spades"⟩, ⟨"9_spades"⟩, ⟨"10_spades"⟩, ⟨"j_spades"⟩,
   ⟨"q_spades"⟩, ⟨"k_spades"⟩, ⟨"a_spades"⟩, ⟨"7_hearts"⟩, ⟨"8_hearts"⟩]

def hand12 : List CardV :=
  hand10 ++ [⟨"9_hearts"⟩, ⟨"10_hearts"⟩]

/-- An exchanging-phase snapshot whose declarer holds 10 cards. -/
def gs10 : GameStateV :=
  { current_round := some ⟨"exchanging", some 1⟩
    current_player_id := none
    legal_cards := []
    players := [⟨1, hand10⟩] }

/-- An exchanging-phase snapshot whose declarer holds 12 cards. -/
def gs12 : GameStateV :=
  { current_round := some ⟨"exchanging", some 1⟩
    current_player_id := none
    legal_cards := []
    players := [⟨1, hand12⟩] }

/-- A playing-phase snapshot: player 2 to move, one legal card. -/
def gsPlay : GameStateV :=
  { current_round := some ⟨"playing", some 1⟩
    current_player_id := some 2
    legal_cards := [⟨"a_hearts"⟩]
    players := [⟨1, hand10⟩, ⟨2, [⟨"a_hearts"⟩, ⟨"7_clubs"⟩]⟩] }

/-! ## C1 — the deal partitions the deck -/

theorem shuffleFrom_perm (seed : Nat) (l : List Card) :
    (shuffleFrom seed l).Perm l := by
  generalize hn : l.length = n
  induction n generalizing seed l with
  | zero =>
    cases l with
    | nil => simp [shuffleFrom]
    | cons x xs => simp at hn
  | succ n ih =>
    cases l with
    | nil => simp at hn
    | cons x xs =>
      rw [shuffleFrom]
      have hc : (x :: xs).get ⟨seed % (xs.length + 1), Nat.mod_lt _ (Nat.succ_pos _)⟩
          ∈ x :: xs := List.get_mem _ _ _
      have hlen : ((x :: xs).erase
          ((x :: xs).get ⟨seed % (xs.length + 1), Nat.mod_lt _ (Nat.succ_pos _)⟩)).length = n := by
        rw [List.length_erase_of_mem hc]
        simpa using hn
      exact (List.Perm.cons _ (ih _ _ hlen)).trans (List.perm_cons_erase hc).symm

theorem fullDeck_length : fullDeck.length = 32 := by decide

theorem fullDeck_nodup : fullDeck.Nodup := by decide

theorem fullDeck_count (c : Card) : fullDeck.count c = 1 := by
  obtain ⟨r, s⟩ := c
  cases r <;> cases s <;> decide

theorem deal_concat_eq (seed : Nat) :
    (shuffleAndDeal seed).hand1 ++ (shuffleAndDeal seed).hand2 ++
      (shuffleAndDeal seed).hand3 ++ (shuffleAndDeal seed).talon =
    shuffleFrom seed fullDeck := by
  show (shuffleFrom seed fullDeck).take 10 ++
      ((shuffleFrom seed fullDeck).drop 10).take 10 ++
      ((shuffleFrom seed fullDeck).drop 20).take 10 ++
      (shuffleFrom seed fullDeck).drop 30 = shuffleFrom seed fullDeck
  have h30 : (shuffleFrom seed fullDeck).drop 30 =
      ((shuffleFrom seed fullDeck).drop 20).drop 10 := by
    rw [List.drop_drop]
  have h20 : (shuffleFrom seed fullDeck).drop 20 =
      ((shuffleFrom seed fullDeck).drop 10).drop 10 := by
    rw [List.drop_drop]
  rw [List.append_assoc, List.append_assoc, h30, List.take_append_drop, h20,
    List.take_append_drop, List.take_append_drop]

/-- C1: every deal produced at round start partitions the fixed 32-card
deck: the three hands have 10 cards each, the talon 2, the counts sum to
32, and every one of the 32 cards appears exactly once across the three
hands and the talon (no duplicates, no omissions). -/
theorem deal_partitions_deck (seed : Nat) :
    (shuffleAndDeal seed).hand1.length = 10 ∧
    (shuffleAndDeal seed).hand2.length = 10 ∧
    (shuffleAndDeal seed).hand3.length = 10 ∧
    (shuffleAndDeal seed).talon.length = 2 ∧
    (shuffleAndDeal seed).hand1.length + (shuffleAndDeal seed).hand2.length +
      (shuffleAndDeal seed).hand3.length + (shuffleAndDeal seed).talon.length = 32 ∧
    ((shuffleAndDeal seed).hand1 ++ (shuffleAndDeal seed).hand2 ++
      (shuffleAndDeal seed).hand3 ++ (shuffleAndDeal seed).talon).Nodup ∧
    ∀ c : Card, ((shuffleAndDeal seed).hand1 ++ (shuffleAndDeal seed).hand2 ++
      (shuffleAndDeal seed).hand3 ++ (shuffleAndDeal seed).talon).count c = 1 := by
  have hperm : (shuffleFrom seed fullDeck).Perm fullDeck := shuffleFrom_perm seed fullDeck
  have hlen : (shuffleFrom seed fullDeck).length = 32 :=
    hperm.length_eq.trans fullDeck_length
  have hcat := deal_concat_eq seed
  have h1 : (shuffleAndDeal seed).hand1.length = 10 := by
    show ((shuffleFrom seed fullDeck).take 10).length = 10
    simp [List.length_take, hlen]
  have h2 : (shuffleAndDeal seed).hand2.length = 10 := by
    show (((shuffleFrom seed fullDeck).drop 10).take 10).length = 10
    simp [List.length_take, List.length_drop, hlen]
  have h3 : (shuffleAndDeal seed).hand3.length = 10 := by
    show (((shuffleFrom seed fullDeck).drop 20).take 10).length = 10
    simp [List.length_take, List.length_drop, hlen]
  have h4 : (shuffleAndDeal seed).talon.length = 2 := by
    show ((shuffleFrom seed fullDeck).drop 30).length = 2
    simp [List.length_drop, hlen]
  refine ⟨h1, h2, h3, h4, by omega, ?_, ?_⟩
  · rw [hcat]
    exact hperm.nodup_iff.mpr fullDeck_nodup
  · intro c
    rw [hcat, hperm.count_eq, fullDeck_count]

/-! ## C2 — bidding buttons -/

/-- C2 is false as stated: with no non-pass bid yet the claim asks for
exactly one enabled game-value option (the smallest, 2), but
`updateBiddingButtons` enables every game-value option `2..5`. -/
theorem updateBiddingButtons_single_enable_counterexample :
    gameBidValues.filter (fun v => !(bidButtonDisabled none v)) = [2, 3, 4, 5] ∧
    (gameBidValues.filter (fun v => !(bidButtonDisabled none v))).length ≠ 1 := by
  decide

/-- C2 (amended): the pass button is enabled unconditionally, and a
game-value option is enabled if and only if its value is at least the
minimum biddable value (one more than the highest non-pass bid's value,
or 2 when there is none) — so all game-value options from that minimum
up to 5 are enabled, not just the smallest. -/
theorem updateBiddingButtons_enables_all_above_min (highestBid : Option BidV)
    (v : Int) (hv : v ∈ gameBidValues) :
    bidButtonDisabled highestBid 0 = false ∧
    (bidButtonDisabled highestBid v = false ↔ minBid highestBid ≤ v) := by
  have hvne : v ≠ 0 := by
    simp only [gameBidValues, List.mem_cons, List.not_mem_nil, or_false] at hv
    rcases hv with rfl | rfl | rfl | rfl <;> decide
  constructor
  · simp [bidButtonDisabled]
  · simp [bidButtonDisabled, hvne, not_lt]

theorem updateBiddingButtons_enables_all_above_min_witness :
    (4 : Int) ∈ gameBidValues ∧
    bidButtonDisabled (some ⟨3, false⟩) 0 = false ∧
    (bidButtonDisabled (some ⟨3, false⟩) 4 = false ↔ minBid (some ⟨3, false⟩) ≤ 4) :=
  ⟨by decide, updateBiddingButtons_enables_all_above_min (some ⟨3, false⟩) 4 (by decide)⟩

/-! ## C3 — contract level options -/

/-- C3: the contract levels offered are exactly those from the
auction-derived minimum up to 7; the minimum is 2 when an in-hand bid
won and the winning game bid's value clamped into `[2,7]` when a game
bid won; and `announceContract` only ever issues a request whose level
lies in `[2,7]`. -/
theorem populateContractOptions_levels_exact (auction : Option AuctionV) :
    2 ≤ minLevel auction ∧ minLevel auction ≤ 7 ∧
    (∀ l : Int, l ∈ populateContractOptions auction ↔
      (minLevel auction ≤ l ∧ l ≤ 7)) ∧
    (∀ a, auction = some a → a.highest_in_hand_bid.isSome = true →
      minLevel auction = 2) ∧
    (∀ a b, auction = some a → a.highest_in_hand_bid = none →
      a.highest_game_bid = some b →
      minLevel auction = max 2 (min (gameBidValue b) 7)) ∧
    (∀ st parsedLevel r declarerId l,
      (announceContract st parsedLevel r).1 = some (declarerId, l) →
      2 ≤ l ∧ l ≤ 7) := by
  have hb : 2 ≤ minLevel auction ∧ minLevel auction ≤ 7 := by
    rcases auction with _ | a
    · simp [minLevel]
    · by_cases hih : a.highest_in_hand_bid.isSome
      · simp [minLevel, hih]
      · rcases hgb : a.highest_game_bid with _ | b
        · simp [minLevel, hih, hgb]
        · simp only [minLevel, hih, hgb, Bool.false_eq_true, if_false]
          omega
  refine ⟨hb.1, hb.2, ?_, ?_, ?_, ?_⟩
  · intro l
    unfold populateContractOptions
    simp only [List.mem_append, List.mem_map, List.mem_range]
    constructor
    · rintro ((⟨i, hi, rfl⟩ | h6) | h7)
      · omega
      · have hm6 : minLevel auction ≤ 6 := by
          by_contra hc
          simp [hc] at h6
        simp [hm6] at h6
        omega
      · have hm7 : minLevel auction ≤ 7 := hb.2
        simp [hm7] at h7
        omega
    · rintro ⟨hml, hl7⟩
      by_cases hl5 : l ≤ 5
      · exact Or.inl (Or.inl ⟨(l - minLevel auction).toNat, by omega, by omega⟩)
      · by_cases hl6 : l = 6
        · refine Or.inl (Or.inr ?_)
          have hm6 : minLevel auction ≤ 6 := by omega
          simp [hm6, hl6]
        · have hl7' : l = 7 := by omega
          refine Or.inr ?_
          simp [hb.2, hl7']
  · intro a ha hih
    subst ha
    simp [minLevel, hih]
  · intro a b ha hih hgb
    subst ha
    simp [minLevel, hih, hgb]
  · intro st parsedLevel r declarerId l h
    unfold announceContract at h
    split at h
    · simp at h
    · split at h
      · simp at h
      · split at h
        · simp at h
        · split at h
          · simp at h
          · simp at h
            omega

theorem populateContractOptions_levels_exact_witness :
    (4 : Int) ∈ populateContractOptions (some ⟨none, some ⟨none, some 4⟩⟩) ∧
    ((3 : Int) ∈ populateContractOptions (some ⟨none, some ⟨none, some 4⟩⟩) → False) ∧
    minLevel (some ⟨none, some ⟨none, some 4⟩⟩) =
      max 2 (min (gameBidValue ⟨none, some 4⟩) 7) ∧
    (announceContract ⟨some gs12, []⟩ (some 5) .exn).1 = some (1, 5) ∧
    (2 ≤ (5 : Int) ∧ (5 : Int) ≤ 7) := by
  have h := populateContractOptions_levels_exact (some ⟨none, some ⟨none, some 4⟩⟩)
  refine ⟨(h.2.2.1 4).mpr (by decide), ?_, ?_, by decide, ?_⟩
  · intro hmem
    have hm := (h.2.2.1 3).mp hmem
    revert hm
    decide
  · exact h.2.2.2.2.1 _ _ rfl rfl rfl
  · exact h.2.2.2.2.2 ⟨some gs12, []⟩ (some 5) .exn 1 5 (by decide)

/-! ## C4 — selection cap and the discard request -/

theorem toggleCardSelection_length_le (sel : List String) (c : String)
    (h : sel.length ≤ 2) : (toggleCardSelection sel c).length ≤ 2 := by
  unfold toggleCardSelection
  split
  · rename_i hc
    rw [List.length_erase_of_mem hc]
    omega
  · split
    · rename_i hlt
      rw [List.length_append]
      simp only [List.length_singleton]
      omega
    · exact h

theorem foldl_toggle_length_le (seq : List String) (sel : List String)
    (h : sel.length ≤ 2) :
    (List.foldl toggleCardSelection sel seq).length ≤ 2 := by
  induction seq generalizing sel with
  | nil => simpa using h
  | cons a tl ih => exact ih _ (toggleCardSelection_length_le sel a h)

theorem discardSelected_request_spec (st : ClientState) (r : ApiResponse)
    (body : List String) (h : (discardSelected st r).1 = some body) :
    body = st.selectedCards ∧ st.selectedCards.length = 2 := by
  unfold discardSelected at h
  split at h
  · simp at h
  · split at h
    · simp at h
    · split at h
      · simp at h
      · rename_i hgs hlen hdid
        simp only [Prod.fst, Option.some.injEq] at h
        exact ⟨h.symm, by omega⟩

/-- C4: starting from the empty selection, no sequence of
toggleCardSelection calls ever selects more than 2 cards, and a discard
request, when one is issued at all, always carries exactly 2 card ids —
the server's length-mismatch InvalidDiscardError branch is unreachable
from this client's discard flow. -/
theorem discard_flow_selects_exactly_two (seq : List String)
    (gs : Option GameStateV) (r : ApiResponse) :
    (List.foldl toggleCardSelection [] seq).length ≤ 2 ∧
    ∀ body,
      (discardSelected ⟨gs, List.foldl toggleCardSelection [] seq⟩ r).1 = some body →
      body.length = 2 := by
  refine ⟨foldl_toggle_length_le seq [] (by simp), ?_⟩
  intro body h
  obtain ⟨hb, hl⟩ := discardSelected_request_spec _ _ _ h
  rw [hb]
  exact hl

theorem discard_flow_selects_exactly_two_witness :
    (List.foldl toggleCardSelection [] ["7_spades", "8_spades"]).length ≤ 2 ∧
    (["7_spades", "8_spades"] : List String).length = 2 :=
  ⟨(discard_flow_selects_exactly_two ["7_spades", "8_spades"] (some gs12) .exn).1,
   (discard_flow_selects_exactly_two ["7_spades", "8_spades"] (some gs12) .exn).2
     ["7_spades", "8_spades"] (by decide)⟩

/-! ## C5 — playable cards in the playing phase -/

/-- C5: in the playing phase, a rendered hand card gets the playable
marking, the click-to-play handler and the drag handlers if and only if
its owner is the current player and its id appears in the
server-provided legal_cards list; the selection handlers are never
attached, so the client acts only as a dispatcher over the provided
legal-action set and computes no card legality of its own. -/
theorem renderPlayerCard_playable_iff (gs : GameStateV)
    (selectedCards : List String) (player : PlayerV) (card : CardV)
    (hp : gs.current_round.map (fun r => r.phase) = some "playing") :
    ((renderPlayerCard gs selectedCards player card).playable = true ↔
      (gs.current_player_id = some player.id ∧
        card.id ∈ gs.legal_cards.map (fun c => c.id))) ∧
    (renderPlayerCard gs selectedCards player card).clickPlays =
      (renderPlayerCard gs selectedCards player card).playable ∧
    (renderPlayerCard gs selectedCards player card).draggable =
      (renderPlayerCard gs selectedCards player card).playable ∧
    (renderPlayerCard gs selectedCards player card).selectable = false ∧
    (renderPlayerCard gs selectedCards player card).clickToggles = false := by
  unfold renderPlayerCard
  simp [hp]

theorem renderPlayerCard_playable_iff_witness :
    (renderPlayerCard gsPlay [] ⟨2, [⟨"a_hearts"⟩, ⟨"7_clubs"⟩]⟩
      ⟨"a_hearts"⟩).playable = true :=
  ((renderPlayerCard_playable_iff gsPlay [] ⟨2, [⟨"a_hearts"⟩, ⟨"7_clubs"⟩]⟩
    ⟨"a_hearts"⟩ (by decide)).1).mpr (by decide)

/-! ## C6 — exchange controls and hand size -/

/-- C6 is false as stated in its pickup clause: with the declarer's
hand back at 10 cards the exchange panel (and with it the pickup
button) is hidden in favour of the contract controls, so the pickup
control is not offered although the hand does not hold 12 cards. -/
theorem exchange_pickup_at_ten_counterexample :
    findDeclarer gs10 = some ⟨1, hand10⟩ ∧
    (⟨1, hand10⟩ : PlayerV).hand.length ≠ 12 ∧
    pickupOffered (showActionPanelForPhase gs10 (roundPhase gs10) false) = false := by
  decide

/-- C6 (amended): during the exchanging phase, discard selection on the
declarer's cards is offered exactly when the hand holds 12 cards; the
exchange controls are replaced by the contract-declaration controls
exactly when the hand holds 10 cards; and the talon-pickup control is
offered exactly when the hand holds neither 10 nor 12 cards. -/
theorem exchange_controls_track_hand_size (gs : GameStateV)
    (declarer : PlayerV) (prev : Bool) (selectedCards : List String)
    (card : CardV) (hd : findDeclarer gs = some declarer)
    (hp : roundPhase gs = "exchanging") :
    ((showActionPanelForPhase gs (roundPhase gs) prev).contractShown = true ↔
      declarer.hand.length = 10) ∧
    ((showActionPanelForPhase gs (roundPhase gs) prev).exchangeShown = true ↔
      declarer.hand.length ≠ 10) ∧
    (pickupOffered (showActionPanelForPhase gs (roundPhase gs) prev) = true ↔
      (declarer.hand.length ≠ 10 ∧ declarer.hand.length ≠ 12)) ∧
    ((renderPlayerCard gs selectedCards declarer card).selectable = true ↔
      declarer.hand.length = 12) := by
  have hphase : gs.current_round.map (fun r => r.phase) = some "exchanging" := by
    unfold roundPhase at hp
    cases hr : gs.current_round with
    | none => simp [hr] at hp
    | some r =>
      simp only [hr] at hp
      by_cases he : r.phase = ""
      · rw [if_pos he] at hp
        simp at hp
      · rw [if_neg he] at hp
        simp [hr, hp]
  have hid : declarerIdOf gs = some declarer.id := by
    unfold findDeclarer at hd
    cases hdid : declarerIdOf gs with
    | none => simp [hdid] at hd
    | some i =>
      simp only [hdid] at hd
      have hpred := List.find?_some hd
      have heq : declarer.id = i := by simpa using hpred
      rw [heq]
  rw [hp]
  simp only [showActionPanelForPhase, pickupOffered, hd, renderPlayerCard,
    hphase, hid]
  by_cases h10 : declarer.hand.length = 10
  · simp [h10]
  · by_cases h12 : declarer.hand.length = 12
    · simp [h10, h12]
    · simp [h10, h12]

theorem exchange_controls_track_hand_size_witness :
    (renderPlayerCard gs12 [] ⟨1, hand12⟩ ⟨"7_spades"⟩).selectable = true :=
  ((exchange_controls_track_hand_size gs12 ⟨1, hand12⟩ false [] ⟨"7_spades"⟩
    (by decide) (by decide)).2.2.2).mpr (by decide)

/-! ## C7 — required tricks shown at scoring -/

/-- C7: the required-tricks value shown at scoring equals 0 if and only
if the contract's type is betl, and equals 6 for every other contract
type. -/
theorem neededTricks_zero_iff_betl (c : TermContract) :
    (neededTricks (some c) = 0 ↔ c.type = "betl") ∧
    (neededTricks (some c) = 6 ↔ c.type ≠ "betl") := by
  unfold neededTricks
  by_cases h : c.type = "betl" <;> simp [h]

/-! ## C8 — transition handlers are atomic -/

theorem discardSelected_failed (st : ClientState) (r : ApiResponse)
    (hf : apiFailed r) : (discardSelected st r).2 = st := by
  unfold discardSelected
  split
  · rfl
  · split
    · rfl
    · split
      · rfl
      · rcases r with code | _ | ⟨succ, stOpt, res⟩
        · rfl
        · rfl
        · dsimp only
          cases succ
          · simp
          · simp only [apiFailed] at hf
            rcases hf with h | h
            · simp at h
            · subst h
              simp

theorem announceContract_failed (st : ClientState) (parsedLevel : Option Int)
    (r : ApiResponse) (hf : apiFailed r) :
    (announceContract st parsedLevel r).2 = st := by
  unfold announceContract
  split
  · rfl
  · split
    · rfl
    · split
      · rfl
      · split
        · rfl
        · rcases r with code | _ | ⟨succ, stOpt, res⟩
          · rfl
          · rfl
          · dsimp only
            cases succ
            · simp
            · simp only [apiFailed] at hf
              rcases hf with h | h
              · simp at h
              · subst h
                simp

theorem playCard_failed (st : ClientState) (cardId : String)
    (r : ApiResponse) (hf : apiFailed r) :
    (playCard st cardId r).2 = st := by
  unfold playCard
  split
  · rfl
  · split
    · rfl
    · split
      · rfl
      · rcases r with code | _ | ⟨succ, stOpt, res⟩
        · rfl
        · rfl
        · dsimp only
          cases succ
          · simp
          · simp only [apiFailed] at hf
            rcases hf with h | h
            · simp at h
            · subst h
              simp

theorem nextRound_failed (st : ClientState) (r : ApiResponse)
    (hf : apiFailed r) : (nextRound st r).2 = st := by
  unfold nextRound
  rcases r with code | _ | ⟨succ, stOpt, res⟩
  · rfl
  · rfl
  · dsimp only
    cases succ
    · simp
    · simp only [apiFailed] at hf
      rcases hf with h | h
      · simp at h
      · subst h
        simp

theorem discardSelected_success (st : ClientState) (s : GameStateV)
    (res : Option PlayResultV) :
    ((discardSelected st (.ok true (some s) res)).1.isSome →
      (discardSelected st (.ok true (some s) res)).2 = ⟨some s, []⟩) ∧
    ((discardSelected st (.ok true (some s) res)).1 = none →
      (discardSelected st (.ok true (some s) res)).2 = st) := by
  unfold discardSelected
  split
  · simp
  · split
    · simp
    · split
      · simp
      · simp

theorem announceContract_success (st : ClientState) (parsedLevel : Option Int)
    (s : GameStateV) (res : Option PlayResultV) :
    ((announceContract st parsedLevel (.ok true (some s) res)).1.isSome →
      (announceContract st parsedLevel (.ok true (some s) res)).2 =
        { st with gameState := some s }) ∧
    ((announceContract st parsedLevel (.ok true (some s) res)).1 = none →
      (announceContract st parsedLevel (.ok true (some s) res)).2 = st) := by
  unfold announceContract
  split
  · simp
  · split
    · simp
    · split
      · simp
      · split
        · simp
        · simp

theorem playCard_success (st : ClientState) (cardId : String)
    (s : GameStateV) (res : Option PlayResultV) :
    ((playCard st cardId (.ok true (some s) res)).1.isSome →
      (playCard st cardId (.ok true (some s) res)).2 =
        { st with gameState := some s }) ∧
    ((playCard st cardId (.ok true (some s) res)).1 = none →
      (playCard st cardId (.ok true (some s) res)).2 = st) := by
  unfold playCard
  split
  · simp
  · split
    · simp
    · split
      · simp
      · constructor
        · intro _
          dsimp only
          rcases res with _ | ⟨tc, wid, cd, rc⟩
          · rfl
          · cases tc
            · rfl
            · rcases wid with _ | w
              · rfl
              · rcases cd with _ | cv
                · rfl
                · rfl
        · simp

theorem nextRound_success (st : ClientState) (s : GameStateV)
    (res : Option PlayResultV) :
    (nextRound st (.ok true (some s) res)).2 = ⟨some s, []⟩ := by
  unfold nextRound
  simp

/-- C8: every client transition handler is atomic: whenever the request
fails — HTTP error, exception, success=false, or a success response
carrying no state — `gameState` and `selectedCards` are exactly as they
were; on a success response carrying a state, `gameState` is replaced
with that state whenever the handler issued a request at all, and the
state is untouched when the handler's guards stopped it before the
request. Each transition therefore fully applies or is fully
rejected. -/
theorem client_transitions_atomic (st : ClientState) (parsedLevel : Option Int)
    (cardId : String) (r : ApiResponse) :
    (apiFailed r →
      (discardSelected st r).2 = st ∧
      (announceContract st parsedLevel r).2 = st ∧
      (playCard st cardId r).2 = st ∧
      (nextRound st r).2 = st) ∧
    (∀ s res, r = .ok true (some s) res →
      ((discardSelected st r).1.isSome →
        (discardSelected st r).2 = ⟨some s, []⟩) ∧
      ((discardSelected st r).1 = none → (discardSelected st r).2 = st) ∧
      ((announceContract st parsedLevel r).1.isSome →
        (announceContract st parsedLevel r).2 = { st with gameState := some s }) ∧
      ((announceContract st parsedLevel r).1 = none →
        (announceContract st parsedLevel r).2 = st) ∧
      ((playCard st cardId r).1.isSome →
        (playCard st cardId r).2 = { st with gameState := some s }) ∧
      ((playCard st cardId r).1 = none → (playCard st cardId r).2 = st) ∧
      (nextRound st r).2 = ⟨some s, []⟩) := by
  constructor
  · intro hf
    exact ⟨discardSelected_failed st r hf,
      announceContract_failed st parsedLevel r hf,
      playCard_failed st cardId r hf, nextRound_failed st r hf⟩
  · rintro s res rfl
    obtain ⟨d1, d2⟩ := discardSelected_success st s res
    obtain ⟨a1, a2⟩ := announceContract_success st parsedLevel s res
    obtain ⟨p1, p2⟩ := playCard_success st cardId s res
    exact ⟨d1, d2, a1, a2, p1, p2, nextRound_success st s res⟩

theorem client_transitions_atomic_witness :
    (discardSelected ⟨some gs12, ["7_spades", "8_spades"]⟩ (.httpError 500)).2 =
      ⟨some gs12, ["7_spades", "8_spades"]⟩ ∧
    (nextRound ⟨some gs12, ["7_spades", "8_spades"]⟩ (.httpError 500)).2 =
      ⟨some gs12, ["7_spades", "8_spades"]⟩ :=
  ⟨((client_transitions_atomic ⟨some gs12, ["7_spades", "8_spades"]⟩ none ""
      (.httpError 500)).1 trivial).1,
   ((client_transitions_atomic ⟨some gs12, ["7_spades", "8_spades"]⟩ none ""
      (.httpError 500)).1 trivial).2.2.2⟩

/-! ## C9 — all-pass rounds show no scores -/

/-- C9: when a round ends all-pass, the scoring view reports a redeal
and nothing else: no per-player score table, no score deltas, no
game-over banner, no needed-tricks line. -/
theorem renderScoring_all_pass_no_scores (st : TermState)
    (h : st.all_pass = true) :
    (renderScoring st).redealMessage = true ∧
    (renderScoring st).table = [] ∧
    (renderScoring st).noFollowersMessage = false ∧
    (renderScoring st).gameOverMessage = false ∧
    (renderScoring st).neededShown = none := by
  simp [renderScoring, h]

theorem renderScoring_all_pass_no_scores_witness :
    (renderScoring allPassState).redealMessage = true ∧
    (renderScoring allPassState).table = [] ∧
    (renderScoring allPassState).noFollowersMessage = false ∧
    (renderScoring allPassState).gameOverMessage = false ∧
    (renderScoring allPassState).neededShown = none :=
  renderScoring_all_pass_no_scores allPassState (by rfl)

/-! ## C10 — toggling a card twice restores the selection -/

/-- C10: toggling the same card id twice in succession leaves the
selection with exactly the same membership as before, for every
selection state the client can reach (no duplicate ids, at most 2
selected) and every card id — whether the card was selected, unselected
with room, or unselected with the 2-card cap reached. -/
theorem toggleCardSelection_involutive (sel : List String) (c : String)
    (hnd : sel.Nodup) (hle : sel.length ≤ 2) :
    ∀ x, x ∈ toggleCardSelection (toggleCardSelection sel c) c ↔ x ∈ sel := by
  intro x
  by_cases hc : c ∈ sel
  · have h1 : toggleCardSelection sel c = sel.erase c := by
      simp [toggleCardSelection, hc]
    have hcne : c ∉ sel.erase c := by
      intro hmem
      exact ((hnd.mem_erase_iff.mp hmem).1 rfl)
    have hlt : (sel.erase c).length < 2 := by
      rw [List.length_erase_of_mem hc]
      have := List.length_pos_of_mem hc
      omega
    rw [h1]
    unfold toggleCardSelection
    rw [if_neg hcne, if_pos hlt]
    by_cases hx : x = c
    · subst hx
      simp [hc]
    · simp [List.mem_append, hx, List.mem_erase_of_ne hx]
  · by_cases hlen : sel.length < 2
    · have h1 : toggleCardSelection sel c = sel ++ [c] := by
        simp [toggleCardSelection, hc, hlen]
      have hc2 : c ∈ sel ++ [c] := by simp
      have h2 : toggleCardSelection (sel ++ [c]) c = sel := by
        simp only [toggleCardSelection, if_pos hc2]
        rw [List.erase_append_right _ hc]
        simp
      rw [h1, h2]
    · have h1 : toggleCardSelection sel c = sel := by
        simp [toggleCardSelection, hc, hlen]
      rw [h1, h1]

theorem toggleCardSelection_involutive_witness :
    "7_spades" ∈
      toggleCardSelection (toggleCardSelection ["7_spades"] "8_hearts") "8_hearts" :=
  (toggleCardSelection_involutive ["7_spades"] "8_hearts" (by decide) (by decide)
    "7_spades").mpr (by decide)
